import Mathlib

/-!
Shallow embedding of the consensus model checker core in
src/cs_sr/src/model.rs, together with the composed global model that the
stateright ActorModel in src/cs_sr/src/main.rs builds from it
(unordered, non-duplicating, non-lossy network; timers fire only when
registered).  Machine integers (usize) are modelled as Nat: all counters
only ever grow by small increments, far from overflow.
-/

namespace CsSr

/-- Possible values for consensus (enum Value in model.rs). -/
inductive Value
  | V1
  | V2
  | V3
deriving DecidableEq, Repr, Fintype

/-- Node states in the consensus protocol (enum NodeState in model.rs). -/
inductive NodeState
  | Init
  | Prepared
  | Committed
  | Decided
  | Failed
deriving DecidableEq, Repr

/-- Message types in the protocol (enum MessageType in model.rs). -/
inductive MessageType
  | Propose (v : Value)
  | Prepare (v : Value)
  | Commit (v : Value)
  | Decide (v : Value)
deriving DecidableEq, Repr

/-- Timer types for non-deterministic actions (enum ConsensusTimer). -/
inductive ConsensusTimer
  | ProposeValue (v : Value)
deriving DecidableEq, Repr

/-- A HashMap from Value to usize, modelled as an association list without
duplicate keys.  Lookup is first-match; the entry API updates in place or
appends.  Iteration order of the Rust HashMap is unobservable in model.rs
(only get and entry are used), so the deterministic list order is a faithful
representation. -/
abbrev Tally := List (Value × Nat)

/-- HashMap::get, returning none when the key is absent. -/
def Tally.get : Tally → Value → Option Nat
  | [], _ => none
  | (k, n) :: rest, v => if k = v then some n else Tally.get rest v

/-- HashMap::get(...).unwrap_or(&0). -/
def Tally.getD (t : Tally) (v : Value) : Nat := (Tally.get t v).getD 0

/-- entry(v).or_insert(0) followed by an in-place update of the entry with f
(f of the previous count, 0 when absent). -/
def Tally.upsert : Tally → Value → (Nat → Nat) → Tally
  | [], v, f => [(v, f 0)]
  | (k, n) :: rest, v, f =>
      if k = v then (k, f n) :: rest else (k, n) :: Tally.upsert rest v f

/-- struct ConsensusNodeState in model.rs. -/
structure ConsensusNodeState where
  id : Nat
  state : NodeState
  value : Option Value
  prepare_count : Tally
  commit_count : Tally
  decided : Bool
  quorum_size : Nat
  is_faulty : Bool
  has_proposed : Bool
deriving DecidableEq, Repr

/-- ConsensusNodeState::new. -/
def ConsensusNodeState.new (id : Nat) (quorum_size : Nat) : ConsensusNodeState where
  id := id
  state := NodeState.Init
  value := none
  prepare_count := []
  commit_count := []
  decided := false
  quorum_size := quorum_size
  is_faulty := false
  has_proposed := false

/-- ConsensusNodeState::has_quorum. -/
def ConsensusNodeState.has_quorum (s : ConsensusNodeState) (count : Nat) : Bool :=
  decide (s.quorum_size ≤ count)

/-- The manual Hash impl for ConsensusNodeState feeds the hasher these
fields, in this order, and deliberately skips prepare_count and
commit_count.  Two states hash equal exactly when they feed the hasher the
same token stream. -/
inductive HashToken
  | nat (n : Nat)
  | phase (p : NodeState)
  | optValue (v : Option Value)
  | bool (b : Bool)
deriving DecidableEq, Repr

/-- impl Hash for ConsensusNodeState: the stream of hashed fields. -/
def nodeHashStream (s : ConsensusNodeState) : List HashToken :=
  [HashToken.nat s.id, HashToken.phase s.state, HashToken.optValue s.value,
   HashToken.bool s.decided, HashToken.nat s.quorum_size,
   HashToken.bool s.is_faulty, HashToken.bool s.has_proposed]

/-- Equality of two tallies as HashMaps: same key set and same value at
every present key (Rust derived PartialEq on HashMap), i.e. extensionally
equal lookup functions. -/
def tallyEqRust (t1 t2 : Tally) : Prop := ∀ v, Tally.get t1 v = Tally.get t2 v

instance (t1 t2 : Tally) : Decidable (tallyEqRust t1 t2) := by
  unfold tallyEqRust
  infer_instance

/-- Rust derived PartialEq on ConsensusNodeState: every field equal, the
two HashMap fields compared as maps. -/
def nodeEqRust (s1 s2 : ConsensusNodeState) : Prop :=
  s1.id = s2.id ∧ s1.state = s2.state ∧ s1.value = s2.value ∧
  tallyEqRust s1.prepare_count s2.prepare_count ∧
  tallyEqRust s1.commit_count s2.commit_count ∧
  s1.decided = s2.decided ∧ s1.quorum_size = s2.quorum_size ∧
  s1.is_faulty = s2.is_faulty ∧ s1.has_proposed = s2.has_proposed

/-- Messages and timers an actor operation hands to the stateright Out
collector: o.send(dst, msg) appends to sends, o.set_timer would append to
timers (model.rs never calls set_timer). -/
structure ActorOut where
  sends : List (Nat × MessageType)
  timers : List ConsensusTimer
deriving DecidableEq, Repr

/-- struct ConsensusActor in model.rs: the per-node configuration. -/
structure ConsensusActor where
  peers : List Nat
  faulty_nodes : List Nat
  quorum_size : Nat
deriving DecidableEq, Repr

/-- Actor::on_start in model.rs. -/
def ConsensusActor.on_start (a : ConsensusActor) (id : Nat) :
    ConsensusNodeState × ActorOut :=
  let state := ConsensusNodeState.new id a.quorum_size
  if a.faulty_nodes.contains id then
    ({ state with is_faulty := true, state := NodeState.Failed }, ⟨[], []⟩)
  else if id = 0 ∧ ¬ a.faulty_nodes.contains 0 then
    (state,
     ⟨(a.peers.map fun p =>
        [(p, MessageType.Propose Value.V1),
         (p, MessageType.Propose Value.V2),
         (p, MessageType.Propose Value.V3)]).flatten, []⟩)
  else
    (state, ⟨[], []⟩)

/-- Actor::on_msg in model.rs. -/
def ConsensusActor.on_msg (a : ConsensusActor) (s : ConsensusNodeState)
    (msg : MessageType) : ConsensusNodeState × ActorOut :=
  if s.is_faulty then (s, ⟨[], []⟩)
  else
    match msg with
    | MessageType.Propose v =>
        if s.state = NodeState.Init ∧ s.value = none then
          ({ s with
              value := some v,
              prepare_count := Tally.upsert s.prepare_count v fun _ => 1 },
           ⟨a.peers.map fun p => (p, MessageType.Prepare v), []⟩)
        else (s, ⟨[], []⟩)
    | MessageType.Prepare v =>
        match s.value with
        | some my_value =>
            if my_value = v then
              let pc := Tally.upsert s.prepare_count v fun c => c + 1
              let count_value := Tally.getD pc v
              if s.has_quorum count_value ∧ s.state = NodeState.Init then
                ({ s with
                    prepare_count := pc,
                    state := NodeState.Prepared,
                    commit_count := Tally.upsert s.commit_count v fun _ => 1 },
                 ⟨a.peers.map fun p => (p, MessageType.Commit v), []⟩)
              else ({ s with prepare_count := pc }, ⟨[], []⟩)
            else (s, ⟨[], []⟩)
        | none => (s, ⟨[], []⟩)
    | MessageType.Commit v =>
        if s.state = NodeState.Prepared then
          match s.value with
          | some my_value =>
              if my_value = v then
                let cc := Tally.upsert s.commit_count v fun c => c + 1
                let count_value := Tally.getD cc v
                if s.has_quorum count_value then
                  ({ s with
                      commit_count := cc,
                      state := NodeState.Committed },
                   ⟨a.peers.map fun p => (p, MessageType.Decide v), []⟩)
                else ({ s with commit_count := cc }, ⟨[], []⟩)
              else (s, ⟨[], []⟩)
          | none => (s, ⟨[], []⟩)
        else (s, ⟨[], []⟩)
    | MessageType.Decide v =>
        match s.value with
        | some my_value =>
            if my_value = v ∧ s.decided = false then
              ({ s with decided := true, state := NodeState.Decided }, ⟨[], []⟩)
            else (s, ⟨[], []⟩)
        | none => (s, ⟨[], []⟩)

/-- Actor::on_timeout in model.rs. -/
def ConsensusActor.on_timeout (a : ConsensusActor) (s : ConsensusNodeState)
    (t : ConsensusTimer) : ConsensusNodeState × ActorOut :=
  if s.is_faulty then (s, ⟨[], []⟩)
  else
    match t with
    | ConsensusTimer.ProposeValue v =>
        if s.state = NodeState.Init ∧ s.has_proposed = false then
          ({ s with has_proposed := true },
           ⟨a.peers.map fun p => (p, MessageType.Propose v), []⟩)
        else (s, ⟨[], []⟩)

/-- ConsensusModel::check_agreement in model.rs: all non-faulty decided
nodes hold the same value. -/
def check_agreement (history : List ConsensusNodeState) : Bool :=
  let decided_values :=
    (history.filter fun s => s.decided && !s.is_faulty).filterMap fun s => s.value
  if 1 < decided_values.length then
    match decided_values with
    | first :: _ => decided_values.all fun v => v = first
    | [] => true
  else true

/-- ConsensusModel::check_no_premature_decision in model.rs. -/
def check_no_premature_decision (s : ConsensusNodeState) : Bool :=
  if s.state = NodeState.Decided then
    match s.value with
    | some v => decide (s.quorum_size ≤ Tally.getD s.commit_count v)
    | none => false
  else true

/-- An in-flight message of the composed stateright model. -/
structure Envelope where
  src : Nat
  dst : Nat
  msg : MessageType
deriving DecidableEq, Repr

/-- A global state of the composed ActorModel: the per-actor states, the
multiset of in-flight envelopes (unordered non-duplicating network, as built
by run_scenario in main.rs), and the registered timers. -/
structure GlobalState where
  actor_states : List ConsensusNodeState
  network : List Envelope
  timers : List (Nat × ConsensusTimer)
deriving DecidableEq, Repr

/-- The initial global state: on_start runs for every id, the network is
seeded with every initial send. -/
def initGlobal (a : ConsensusActor) (n : Nat) : GlobalState where
  actor_states := (List.range n).map fun i => (a.on_start i).1
  network :=
    ((List.range n).map fun i =>
      (a.on_start i).2.sends.map fun pm => Envelope.mk i pm.1 pm.2).flatten
  timers :=
    ((List.range n).map fun i =>
      (a.on_start i).2.timers.map fun t => (i, t)).flatten

/-- Deliver the i-th in-flight envelope: remove it from the network, run
on_msg at the destination, and collect the outputs. -/
def deliver (a : ConsensusActor) (g : GlobalState) (i : Nat) :
    Option GlobalState :=
  match g.network.get? i with
  | none => none
  | some e =>
      match g.actor_states.get? e.dst with
      | none => none
      | some s =>
          let r := a.on_msg s e.msg
          some
            { actor_states := g.actor_states.set e.dst r.1
              network := g.network.eraseIdx i ++
                r.2.sends.map fun pm => Envelope.mk e.dst pm.1 pm.2
              timers := g.timers ++ r.2.timers.map fun t => (e.dst, t) }

/-- Fire the i-th registered timer: remove it, run on_timeout at its node,
and collect the outputs.  Enabled only when a timer is registered. -/
def fireTimer (a : ConsensusActor) (g : GlobalState) (i : Nat) :
    Option GlobalState :=
  match g.timers.get? i with
  | none => none
  | some nt =>
      match g.actor_states.get? nt.1 with
      | none => none
      | some s =>
          let r := a.on_timeout s nt.2
          some
            { actor_states := g.actor_states.set nt.1 r.1
              network := g.network ++
                r.2.sends.map fun pm => Envelope.mk nt.1 pm.1 pm.2
              timers := g.timers.eraseIdx i ++ r.2.timers.map fun t => (nt.1, t) }

/-- One scheduler choice of the composed model. -/
inductive Action
  | deliver (i : Nat)
  | fire (i : Nat)
deriving DecidableEq, Repr

/-- Apply one scheduler choice. -/
def applyAction (a : ConsensusActor) (g : GlobalState) : Action → Option GlobalState
  | Action.deliver i => deliver a g i
  | Action.fire i => fireTimer a g i

/-- Run a sequence of scheduler choices from a global state. -/
def runModel (a : ConsensusActor) : GlobalState → List Action → Option GlobalState
  | g, [] => some g
  | g, act :: rest =>
      match applyAction a g act with
      | none => none
      | some g2 => runModel a g2 rest

/-- A global state is reachable when some sequence of scheduler choices
produces it from the initial state. -/
def ReachableFrom (a : ConsensusActor) (n : Nat) (g : GlobalState) : Prop :=
  ∃ acts, runModel a (initGlobal a n) acts = some g

/-- The S6 scenario of the specification: three nodes, no faults, quorum 2,
node 0 seeding proposals for several values. -/
def cfgS6 : ConsensusActor := ⟨[0, 1, 2], [], 2⟩

/-- The configuration run_scenario(3, 0, false) in main.rs builds: three
nodes, no faults, quorum_size = num_nodes = 3. -/
def cfgScenario1 : ConsensusActor := ⟨[0, 1, 2], [], 3⟩

/-- Delivery schedule under cfgS6 that lets node 1 decide V1 and node 2
decide V2: each node latches a different proposal from node 0 and then
reaches both quorums alone, because its own vote is counted twice (the
self-credit tally entry of 1 plus the delivery of its own broadcast). -/
def traceSplitBrain : List Action :=
  [3, 9, 11, 13, 6, 15, 17, 19].map Action.deliver

/-- Delivery schedule under cfgScenario1 that drives nodes 1 and 2 to
Prepared, node 1 to Committed, and then delivers the resulting Decide(V1)
to node 0 while node 0 is still in Init with an empty commit tally. -/
def tracePrematureDecide : List Action :=
  [0, 2, 4, 7, 12, 7, 9, 12, 14, 15].map Action.deliver

/-- A node state with phase Failed but is_faulty false.  Such a state is
outside what on_start ever constructs, but the claim about phase
monotonicity quantifies over every node state. -/
def failedNonFaulty : ConsensusNodeState :=
  ⟨0, NodeState.Failed, some Value.V1, [], [], false, 2, false, false⟩

/-- Rank of a phase in the linear order Init < Prepared < Committed <
Decided, with Failed on top as an absorbing extra point. -/
def phaseRank : NodeState → Nat
  | NodeState.Init => 0
  | NodeState.Prepared => 1
  | NodeState.Committed => 2
  | NodeState.Decided => 3
  | NodeState.Failed => 4

/-- Whether a message is a Propose. -/
def isProposeMsg : MessageType → Bool
  | MessageType.Propose _ => true
  | _ => false

/-- The complement of the transition-table guards of on_msg, per message
kind. -/
def guardFalse (s : ConsensusNodeState) : MessageType → Prop
  | MessageType.Propose _ => ¬(s.state = NodeState.Init ∧ s.value = none)
  | MessageType.Prepare v => s.value ≠ some v
  | MessageType.Commit v => ¬(s.state = NodeState.Prepared ∧ s.value = some v)
  | MessageType.Decide v => s.value ≠ some v ∨ s.decided = true

/-- The decided flag agrees with the phase. -/
def decidedInv (s : ConsensusNodeState) : Prop :=
  s.decided = true ↔ s.state = NodeState.Decided

/-- A single event a node can process after start: a message delivery or a
timer firing. -/
inductive NodeEvent
  | msg (m : MessageType)
  | timer (t : ConsensusTimer)
deriving DecidableEq, Repr

/-- Process one event at a node. -/
def nodeStep (a : ConsensusActor) (s : ConsensusNodeState) :
    NodeEvent → ConsensusNodeState × ActorOut
  | NodeEvent.msg m => a.on_msg s m
  | NodeEvent.timer t => a.on_timeout s t

/-- Whether processing this event at this node emits a Propose message. -/
def stepEmitsPropose (a : ConsensusActor) (s : ConsensusNodeState)
    (e : NodeEvent) : Bool :=
  (nodeStep a s e).2.sends.any fun pm => isProposeMsg pm.2

/-- How many events of the sequence emit at least one Propose message when
processed in order at one node. -/
def countProposeSteps (a : ConsensusActor) :
    ConsensusNodeState → List NodeEvent → Nat
  | _, [] => 0
  | s, e :: rest =>
      (if stepEmitsPropose a s e then 1 else 0) +
        countProposeSteps a (nodeStep a s e).1 rest

/-- Invariant carried through every execution of the composed model: no
timer is ever registered, and every in-flight Propose envelope is one of
the envelopes node 0 seeded at start. -/
def ProposeBagInv (a : ConsensusActor) (n : Nat) (g : GlobalState) : Prop :=
  g.timers = [] ∧
  ∀ e ∈ g.network, (∃ v, e.msg = MessageType.Propose v) →
    e.src = 0 ∧ e ∈ (initGlobal a n).network

/-- A sample faulty node state, as on_start builds for a faulty id. -/
def sampleFaulty : ConsensusNodeState :=
  ⟨2, NodeState.Failed, none, [], [], false, 3, true, false⟩

/-- A sample node state that has latched the value V2. -/
def sampleLatched : ConsensusNodeState :=
  ⟨1, NodeState.Init, some Value.V2, [(Value.V2, 1)], [], false, 3, false, false⟩

/-- Two sample node states that agree on every scalar field and whose tally
maps are equal as maps but listed in different orders. -/
def sampleHashA : ConsensusNodeState :=
  ⟨1, NodeState.Prepared, some Value.V1, [(Value.V1, 2), (Value.V2, 1)],
   [(Value.V1, 1)], false, 3, false, false⟩

/-- Companion of sampleHashA with the prepare tally entries swapped. -/
def sampleHashB : ConsensusNodeState :=
  ⟨1, NodeState.Prepared, some Value.V1, [(Value.V2, 1), (Value.V1, 2)],
   [(Value.V1, 1)], false, 3, false, false⟩

/-- Claim C1 (code bug): Agreement fails on the code.  In the S6
configuration (three nodes, no faults, quorum 2) the delivery schedule
traceSplitBrain reaches a global state in which node 1 and node 2, both
non-faulty, are decided on the different values V1 and V2, and the
check_agreement predicate of model.rs evaluates to false on that state. -/
theorem agreement_violated_in_S6 :
    ((runModel cfgS6 (initGlobal cfgS6 3) traceSplitBrain).map fun g =>
      (check_agreement g.actor_states,
       g.actor_states.map fun s => (s.is_faulty, s.decided, s.value))) =
    some (false,
      [(false, false, none),
       (false, true, some Value.V1),
       (false, true, some Value.V2)]) := by decide

/-- Claim C2 (code bug): a node can reach phase Decided without a commit
quorum.  Under the very configuration run_scenario(3, 0, false) explores
(three nodes, no faults, quorum 3), the schedule tracePrematureDecide
reaches a global state in which node 0 is Decided on V1 with an empty
commit tally, and check_no_premature_decision of model.rs evaluates to
false on that node. -/
theorem premature_decision_reachable :
    ((runModel cfgScenario1 (initGlobal cfgScenario1 3) tracePrematureDecide).map
      fun g => g.actor_states.map fun s =>
        (s.state, s.value, s.commit_count, check_no_premature_decision s)) =
    some
      [(NodeState.Decided, some Value.V1, [], false),
       (NodeState.Committed, some Value.V1, [(Value.V1, 3)], true),
       (NodeState.Prepared, some Value.V1, [(Value.V1, 1)], true)] := by rfl

/-- Claim C4 counterexample: over arbitrary node states, Failed is not
absorbing.  A node state with phase Failed but is_faulty false moves to
phase Decided when it processes a Decide message for its latched value. -/
theorem failed_phase_not_absorbing :
    failedNonFaulty.state = NodeState.Failed ∧
    (cfgS6.on_msg failedNonFaulty (MessageType.Decide Value.V1)).1.state =
      NodeState.Decided := by decide

/-- Claim C6 counterexample: node 0 emits Propose messages in its on_start
step, yet the returned state still has has_proposed = false, so it is not
true that a node that has just emitted a Propose has its has_proposed flag
set. -/
theorem on_start_proposes_without_flag :
    (cfgS6.on_start 0).2.sends ≠ [] ∧
    ((cfgS6.on_start 0).2.sends.all fun pm => isProposeMsg pm.2) = true ∧
    (cfgS6.on_start 0).1.has_proposed = false := by decide

/-- Claim C5: faulty nodes are inert.  For every configuration and every
node state flagged faulty, on_msg for any message and on_timeout for any
timer return the state unchanged with no sends and no timers. -/
theorem faulty_nodes_inert (a : ConsensusActor) (s : ConsensusNodeState)
    (h : s.is_faulty = true) :
    (∀ m, a.on_msg s m = (s, ⟨[], []⟩)) ∧
    (∀ t, a.on_timeout s t = (s, ⟨[], []⟩)) := by
  refine ⟨fun m => ?_, fun t => ?_⟩
  · simp [ConsensusActor.on_msg, h]
  · simp [ConsensusActor.on_timeout, h]

/-- Witness for faulty_nodes_inert at the faulty state on_start builds for
node 2 of a configuration with faulty_nodes = [2]. -/
theorem faulty_nodes_inert_witness :
    sampleFaulty.is_faulty = true ∧
    ConsensusActor.on_msg ⟨[0, 1, 2], [2], 3⟩ sampleFaulty
      (MessageType.Propose Value.V1) = (sampleFaulty, ⟨[], []⟩) :=
  ⟨by decide,
   (faulty_nodes_inert ⟨[0, 1, 2], [2], 3⟩ sampleFaulty (by decide)).1
     (MessageType.Propose Value.V1)⟩

/-- Claim C3: the accepted value is a single latch.  If a node has
value = some v before any single message or timer event, it still has
value = some v afterwards. -/
theorem accepted_value_latched (a : ConsensusActor) (s : ConsensusNodeState)
    (v : Value) (h : s.value = some v) :
    (∀ m, (a.on_msg s m).1.value = some v) ∧
    (∀ t, (a.on_timeout s t).1.value = some v) := by
  refine ⟨fun m => ?_, fun t => ?_⟩
  · by_cases hf : s.is_faulty
    · simp [ConsensusActor.on_msg, hf, h]
    · cases m <;> simp [ConsensusActor.on_msg, hf, h] <;> split_ifs <;> simp [h]
  · by_cases hf : s.is_faulty
    · simp [ConsensusActor.on_timeout, hf, h]
    · cases t
      simp [ConsensusActor.on_timeout, hf, h]
      split_ifs <;> simp [h]

/-- Witness for accepted_value_latched: a node that latched V2 still holds
V2 after processing a Propose for V1. -/
theorem accepted_value_latched_witness :
    sampleLatched.value = some Value.V2 ∧
    (cfgScenario1.on_msg sampleLatched (MessageType.Propose Value.V1)).1.value =
      some Value.V2 :=
  ⟨by decide,
   (accepted_value_latched cfgScenario1 sampleLatched Value.V2 (by decide)).1
     (MessageType.Propose Value.V1)⟩

/-- Claim C9: the decided flag is redundant with the phase.  It is false
in every state ConsensusNodeState::new or on_start builds, and every
single on_msg or on_timeout event preserves the equivalence decided = true
iff phase = Decided. -/
theorem decided_iff_phase_decided (a : ConsensusActor) (s : ConsensusNodeState)
    (h : decidedInv s) :
    (∀ id q, decidedInv (ConsensusNodeState.new id q)) ∧
    (∀ i, decidedInv (a.on_start i).1) ∧
    (∀ m, decidedInv (a.on_msg s m).1) ∧
    (∀ t, decidedInv (a.on_timeout s t).1) := by
  refine ⟨fun id q => by simp [decidedInv, ConsensusNodeState.new],
    fun i => ?_, fun m => ?_, fun t => ?_⟩
  · unfold ConsensusActor.on_start
    split_ifs <;> simp [decidedInv, ConsensusNodeState.new]
  · by_cases hf : s.is_faulty
    · simpa [ConsensusActor.on_msg, hf] using h
    · cases m with
      | Propose v =>
          simp only [ConsensusActor.on_msg, hf]
          split_ifs <;> simp_all [decidedInv]
      | Prepare v =>
          simp only [ConsensusActor.on_msg, hf]
          cases hv : s.value
          · simp_all [decidedInv]
          · simp only [hv]
            split_ifs <;> simp_all [decidedInv]
      | Commit v =>
          simp only [ConsensusActor.on_msg, hf]
          cases hv : s.value
          · split_ifs <;> simp_all [decidedInv]
          · simp only [hv]
            split_ifs <;> simp_all [decidedInv]
      | Decide v =>
          simp only [ConsensusActor.on_msg, hf]
          cases hv : s.value
          · simp_all [decidedInv]
          · simp only [hv]
            split_ifs <;> simp_all [decidedInv]
  · by_cases hf : s.is_faulty
    · simpa [ConsensusActor.on_timeout, hf] using h
    · cases t with
      | ProposeValue v =>
          simp only [ConsensusActor.on_timeout, hf]
          split_ifs <;> simp_all [decidedInv]

/-- Witness for decided_iff_phase_decided at the initial node 0 state of
the S6 configuration and a Decide message. -/
theorem decided_iff_phase_decided_witness :
    decidedInv (ConsensusNodeState.new 0 2) ∧
    decidedInv ((cfgS6.on_msg (ConsensusNodeState.new 0 2)
      (MessageType.Decide Value.V1)).1) :=
  ⟨by simp [decidedInv, ConsensusNodeState.new],
   (decided_iff_phase_decided cfgS6 (ConsensusNodeState.new 0 2)
     (by simp [decidedInv, ConsensusNodeState.new])).2.2.1
     (MessageType.Decide Value.V1)⟩

/-- Claim C8: on_msg is the identity, with no sends, on every message
whose transition-table guard is false, and is therefore idempotent on
such messages. -/
theorem on_msg_noop_on_false_guard (a : ConsensusActor)
    (s : ConsensusNodeState) (m : MessageType) (h : guardFalse s m) :
    a.on_msg s m = (s, ⟨[], []⟩) ∧
    a.on_msg (a.on_msg s m).1 m = a.on_msg s m := by
  have h1 : a.on_msg s m = (s, ⟨[], []⟩) := by
    by_cases hf : s.is_faulty
    · simp [ConsensusActor.on_msg, hf]
    · cases m with
      | Propose v =>
          simp only [guardFalse] at h
          simp [ConsensusActor.on_msg, hf, h]
      | Prepare v =>
          simp only [guardFalse] at h
          cases hv : s.value
          · simp [ConsensusActor.on_msg, hf, hv]
          · rw [hv] at h
            simp only [ConsensusActor.on_msg, hf]
            rw [hv]
            simp_all
      | Commit v =>
          simp only [guardFalse] at h
          by_cases hp : s.state = NodeState.Prepared
          · cases hv : s.value
            · simp [ConsensusActor.on_msg, hf, hp, hv]
            · rw [hv] at h
              simp only [ConsensusActor.on_msg, hf]
              rw [hv]
              simp_all
          · simp [ConsensusActor.on_msg, hf, hp]
      | Decide v =>
          simp only [guardFalse] at h
          cases hv : s.value
          · simp [ConsensusActor.on_msg, hf, hv]
          · rw [hv] at h
            simp only [ConsensusActor.on_msg, hf]
            rw [hv]
            rcases h with h | h <;> simp_all
  refine ⟨h1, ?_⟩
  rw [h1]
  exact h1

/-- Witness for on_msg_noop_on_false_guard: a fresh Init node ignores a
Commit message because its guard is false. -/
theorem on_msg_noop_on_false_guard_witness :
    guardFalse (ConsensusNodeState.new 1 3) (MessageType.Commit Value.V1) ∧
    cfgScenario1.on_msg (ConsensusNodeState.new 1 3)
      (MessageType.Commit Value.V1) = (ConsensusNodeState.new 1 3, ⟨[], []⟩) :=
  ⟨by simp [guardFalse, ConsensusNodeState.new],
   (on_msg_noop_on_false_guard cfgScenario1 (ConsensusNodeState.new 1 3)
     (MessageType.Commit Value.V1)
     (by simp [guardFalse, ConsensusNodeState.new])).1⟩

/-- Claim C4 amended: for every node state in which phase Failed occurs
only on a faulty node (true of every state on_start constructs and every
state reachable from them), a single message or timer event never
decreases the phase rank along Init < Prepared < Committed < Decided, and
phase Failed is both absorbing and never newly entered. -/
theorem phase_monotone (a : ConsensusActor) (s : ConsensusNodeState)
    (hF : s.state = NodeState.Failed → s.is_faulty = true) :
    (∀ m, phaseRank s.state ≤ phaseRank (a.on_msg s m).1.state ∧
      ((a.on_msg s m).1.state = NodeState.Failed ↔ s.state = NodeState.Failed)) ∧
    (∀ t, phaseRank s.state ≤ phaseRank (a.on_timeout s t).1.state ∧
      ((a.on_timeout s t).1.state = NodeState.Failed ↔ s.state = NodeState.Failed)) := by
  refine ⟨fun m => ?_, fun t => ?_⟩
  · by_cases hf : s.is_faulty
    · simp [ConsensusActor.on_msg, hf]
    · have hns : ¬ s.state = NodeState.Failed := fun hc => hf (hF hc)
      cases m with
      | Propose v =>
          simp only [ConsensusActor.on_msg, hf]
          split_ifs <;> simp_all
      | Prepare v =>
          simp only [ConsensusActor.on_msg, hf]
          cases hv : s.value
          · simp_all
          · simp only [hv]
            split_ifs <;> cases hs : s.state <;> simp_all [phaseRank]
      | Commit v =>
          simp only [ConsensusActor.on_msg, hf]
          cases hv : s.value
          · split_ifs <;> simp_all
          · simp only [hv]
            split_ifs <;> cases hs : s.state <;> simp_all [phaseRank]
      | Decide v =>
          simp only [ConsensusActor.on_msg, hf]
          cases hv : s.value
          · simp_all
          · simp only [hv]
            split_ifs <;> cases hs : s.state <;> simp_all [phaseRank]
  · by_cases hf : s.is_faulty
    · simp [ConsensusActor.on_timeout, hf]
    · cases t with
      | ProposeValue v =>
          simp only [ConsensusActor.on_timeout, hf]
          split_ifs <;> simp_all

/-- Witness for phase_monotone: the fresh Init node 1 of the S6
configuration processing a Prepare for a value it never latched. -/
theorem phase_monotone_witness :
    phaseRank (ConsensusNodeState.new 1 2).state ≤
      phaseRank ((cfgS6.on_msg (ConsensusNodeState.new 1 2)
        (MessageType.Prepare Value.V1)).1.state) :=
  ((phase_monotone cfgS6 (ConsensusNodeState.new 1 2)
      (by simp [ConsensusNodeState.new])).1
    (MessageType.Prepare Value.V1)).1

/-- Claim C7: the Hash impl and the equality of ConsensusNodeState ignore
tally-map order.  Two node states agreeing on id, phase, value, decided,
quorum, faultiness and has_proposed, whose tally maps are extensionally
equal (in particular, differ only by entry order), feed a hasher the same
stream and are equal under the derived PartialEq. -/
theorem hash_eq_ignore_tally_order (s1 s2 : ConsensusNodeState)
    (hid : s1.id = s2.id) (hst : s1.state = s2.state)
    (hv : s1.value = s2.value) (hd : s1.decided = s2.decided)
    (hq : s1.quorum_size = s2.quorum_size) (hf : s1.is_faulty = s2.is_faulty)
    (hp : s1.has_proposed = s2.has_proposed)
    (hpc : tallyEqRust s1.prepare_count s2.prepare_count)
    (hcc : tallyEqRust s1.commit_count s2.commit_count) :
    nodeHashStream s1 = nodeHashStream s2 ∧ nodeEqRust s1 s2 := by
  refine ⟨?_, hid, hst, hv, hpc, hcc, hd, hq, hf, hp⟩
  simp [nodeHashStream, hid, hst, hv, hd, hq, hf, hp]

/-- Witness for hash_eq_ignore_tally_order: sampleHashA and sampleHashB
have their prepare tallies listed in opposite orders (so the lists differ)
yet hash to the same stream and compare equal. -/
theorem hash_eq_ignore_tally_order_witness :
    sampleHashA.prepare_count ≠ sampleHashB.prepare_count ∧
    (nodeHashStream sampleHashA = nodeHashStream sampleHashB ∧
      nodeEqRust sampleHashA sampleHashB) :=
  ⟨by decide,
   hash_eq_ignore_tally_order sampleHashA sampleHashB rfl rfl rfl rfl rfl rfl rfl
     (by decide) (by decide)⟩

/-- on_msg only ever sends Prepare, Commit or Decide messages, never
Propose. -/
theorem on_msg_no_propose (a : ConsensusActor) (s : ConsensusNodeState)
    (m : MessageType) :
    ((a.on_msg s m).2.sends.any fun pm => isProposeMsg pm.2) = false := by
  by_cases hf : s.is_faulty
  · simp [ConsensusActor.on_msg, hf]
  · cases m with
    | Propose v =>
        simp only [ConsensusActor.on_msg, hf]
        split_ifs <;> simp_all [isProposeMsg, List.any_map, Function.comp]
    | Prepare v =>
        simp only [ConsensusActor.on_msg, hf]
        cases hv : s.value
        · simp_all
        · simp only [hv]
          split_ifs <;> simp_all [isProposeMsg, List.any_map, Function.comp]
    | Commit v =>
        simp only [ConsensusActor.on_msg, hf]
        cases hv : s.value
        · split_ifs <;> simp_all
        · simp only [hv]
          split_ifs <;> simp_all [isProposeMsg, List.any_map, Function.comp]
    | Decide v =>
        simp only [ConsensusActor.on_msg, hf]
        cases hv : s.value
        · simp_all
        · simp only [hv]
          split_ifs <;> simp_all

/-- Membership form of on_msg_no_propose. -/
theorem on_msg_sends_not_propose (a : ConsensusActor) (s : ConsensusNodeState)
    (m : MessageType) :
    ∀ pm ∈ (a.on_msg s m).2.sends, isProposeMsg pm.2 = false := by
  intro pm hpm
  have h := on_msg_no_propose a s m
  rw [List.any_eq_false] at h
  simpa using h pm hpm

/-- A message event never counts as a Propose-emitting step. -/
theorem msg_step_not_propose (a : ConsensusActor) (s : ConsensusNodeState)
    (m : MessageType) : stepEmitsPropose a s (NodeEvent.msg m) = false := by
  simp only [stepEmitsPropose, nodeStep]
  exact on_msg_no_propose a s m

/-- on_timeout on a node whose has_proposed flag is set is a no-op. -/
theorem on_timeout_noop_of_flag (a : ConsensusActor) (s : ConsensusNodeState)
    (t : ConsensusTimer) (h : s.has_proposed = true) :
    a.on_timeout s t = (s, ⟨[], []⟩) := by
  by_cases hf : s.is_faulty
  · simp [ConsensusActor.on_timeout, hf]
  · cases t
    simp [ConsensusActor.on_timeout, hf, h]

/-- Any on_timeout step that emits messages leaves the has_proposed flag
set. -/
theorem on_timeout_emit_sets_flag (a : ConsensusActor) (s : ConsensusNodeState)
    (t : ConsensusTimer) (h : (a.on_timeout s t).2.sends ≠ []) :
    (a.on_timeout s t).1.has_proposed = true := by
  by_cases hf : s.is_faulty
  · simp [ConsensusActor.on_timeout, hf] at h
  · cases t
    by_cases hg : s.state = NodeState.Init ∧ s.has_proposed = false
    · simp [ConsensusActor.on_timeout, hf, hg]
    · simp [ConsensusActor.on_timeout, hf, hg] at h

/-- on_msg leaves the has_proposed flag unchanged. -/
theorem on_msg_preserves_flag (a : ConsensusActor) (s : ConsensusNodeState)
    (m : MessageType) : (a.on_msg s m).1.has_proposed = s.has_proposed := by
  by_cases hf : s.is_faulty
  · simp [ConsensusActor.on_msg, hf]
  · cases m with
    | Propose v =>
        simp only [ConsensusActor.on_msg, hf]
        split_ifs <;> simp_all
    | Prepare v =>
        simp only [ConsensusActor.on_msg, hf]
        cases hv : s.value
        · simp_all
        · simp only [hv]
          split_ifs <;> simp_all
    | Commit v =>
        simp only [ConsensusActor.on_msg, hf]
        cases hv : s.value
        · split_ifs <;> simp_all
        · simp only [hv]
          split_ifs <;> simp_all
    | Decide v =>
        simp only [ConsensusActor.on_msg, hf]
        cases hv : s.value
        · simp_all
        · simp only [hv]
          split_ifs <;> simp_all

/-- Every node event keeps the has_proposed flag set once it is set. -/
theorem nodeStep_flag_mono (a : ConsensusActor) (s : ConsensusNodeState)
    (e : NodeEvent) (h : s.has_proposed = true) :
    (nodeStep a s e).1.has_proposed = true := by
  cases e with
  | msg m => rw [nodeStep, on_msg_preserves_flag]; exact h
  | timer t => rw [nodeStep, on_timeout_noop_of_flag a s t h]; exact h

/-- Once the has_proposed flag is set, no later event of a node emits a
Propose message. -/
theorem countProposeSteps_zero (a : ConsensusActor) (s : ConsensusNodeState)
    (evs : List NodeEvent) (h : s.has_proposed = true) :
    countProposeSteps a s evs = 0 := by
  induction evs generalizing s with
  | nil => rfl
  | cons e rest ih =>
      have hemit : stepEmitsPropose a s e = false := by
        cases e with
        | msg m => exact msg_step_not_propose a s m
        | timer t =>
            simp only [stepEmitsPropose, nodeStep]
            rw [on_timeout_noop_of_flag a s t h]
            rfl
      unfold countProposeSteps
      rw [hemit]
      simp [ih _ (nodeStep_flag_mono a s e h)]

/-- Claim C6 amended: among post-start events, a node broadcasts Propose
in at most one step.  Any on_timeout step that emits messages (these are
always Propose broadcasts) leaves has_proposed = true, and in any sequence
of message or timer events processed at one node, at most one event emits
a Propose message.  (on_start is the exception the counterexample forces:
node 0 broadcasts Propose there without setting has_proposed.) -/
theorem propose_broadcast_at_most_once (a : ConsensusActor) :
    (∀ s t, (a.on_timeout s t).2.sends ≠ [] →
      (a.on_timeout s t).1.has_proposed = true) ∧
    (∀ s evs, countProposeSteps a s evs ≤ 1) := by
  refine ⟨fun s t => on_timeout_emit_sets_flag a s t, fun s evs => ?_⟩
  induction evs generalizing s with
  | nil => simp [countProposeSteps]
  | cons e rest ih =>
      unfold countProposeSteps
      by_cases he : stepEmitsPropose a s e = true
      · rw [if_pos he]
        have hflag : (nodeStep a s e).1.has_proposed = true := by
          cases e with
          | msg m => rw [msg_step_not_propose a s m] at he; cases he
          | timer t =>
              apply on_timeout_emit_sets_flag
              intro hnil
              unfold stepEmitsPropose nodeStep at he
              rw [hnil] at he
              cases he
        rw [countProposeSteps_zero a _ rest hflag]
      · rw [if_neg he]
        simpa using ih _

/-- Witness for propose_broadcast_at_most_once: a fresh node firing its
propose timer and then receiving the echo of its own proposal emits
Propose in exactly one of the two steps, and the timer step sets the
flag. -/
theorem propose_broadcast_at_most_once_witness :
    countProposeSteps cfgS6 (ConsensusNodeState.new 1 2)
      [NodeEvent.timer (ConsensusTimer.ProposeValue Value.V1),
       NodeEvent.msg (MessageType.Propose Value.V1)] ≤ 1 :=
  (propose_broadcast_at_most_once cfgS6).2 (ConsensusNodeState.new 1 2)
    [NodeEvent.timer (ConsensusTimer.ProposeValue Value.V1),
     NodeEvent.msg (MessageType.Propose Value.V1)]

/-- on_start never registers a timer. -/
theorem on_start_timers_nil (a : ConsensusActor) (i : Nat) :
    (a.on_start i).2.timers = [] := by
  unfold ConsensusActor.on_start
  split_ifs <;> rfl

/-- on_msg never registers a timer. -/
theorem on_msg_timers_nil (a : ConsensusActor) (s : ConsensusNodeState)
    (m : MessageType) : (a.on_msg s m).2.timers = [] := by
  by_cases hf : s.is_faulty
  · simp [ConsensusActor.on_msg, hf]
  · cases m with
    | Propose v =>
        simp only [ConsensusActor.on_msg, hf]
        split_ifs <;> simp_all
    | Prepare v =>
        simp only [ConsensusActor.on_msg, hf]
        cases hv : s.value
        · simp_all
        · simp only [hv]
          split_ifs <;> simp_all
    | Commit v =>
        simp only [ConsensusActor.on_msg, hf]
        cases hv : s.value
        · split_ifs <;> simp_all
        · simp only [hv]
          split_ifs <;> simp_all
    | Decide v =>
        simp only [ConsensusActor.on_msg, hf]
        cases hv : s.value
        · simp_all
        · simp only [hv]
          split_ifs <;> simp_all

/-- on_timeout never registers a timer. -/
theorem on_timeout_timers_nil (a : ConsensusActor) (s : ConsensusNodeState)
    (t : ConsensusTimer) : (a.on_timeout s t).2.timers = [] := by
  by_cases hf : s.is_faulty
  · simp [ConsensusActor.on_timeout, hf]
  · cases t
    by_cases hg : s.state = NodeState.Init ∧ s.has_proposed = false <;>
      simp [ConsensusActor.on_timeout, hf, hg]

/-- Only node 0 sends anything from on_start. -/
theorem on_start_sends_id_zero (a : ConsensusActor) (i : Nat)
    (h : (a.on_start i).2.sends ≠ []) : i = 0 := by
  unfold ConsensusActor.on_start at h
  split_ifs at h with h1 h2
  · simp at h
  · exact h2.1
  · simp at h

/-- The initial global state registers no timers. -/
theorem initGlobal_timers_nil (a : ConsensusActor) (n : Nat) :
    (initGlobal a n).timers = [] := by
  simp [initGlobal, on_start_timers_nil]

/-- Every envelope seeded at start has node 0 as source. -/
theorem initGlobal_src_zero (a : ConsensusActor) (n : Nat) :
    ∀ e ∈ (initGlobal a n).network, e.src = 0 := by
  intro e he
  simp only [initGlobal, List.mem_flatten, List.mem_map, List.mem_range] at he
  obtain ⟨l, ⟨i, _, rfl⟩, hel⟩ := he
  obtain ⟨pm, hpm, rfl⟩ := List.mem_map.mp hel
  exact on_start_sends_id_zero a i (List.ne_nil_of_mem hpm)

/-- With no timers registered, no timeout transition is enabled. -/
theorem fireTimer_none_of_no_timers (a : ConsensusActor) (g : GlobalState)
    (h : g.timers = []) (i : Nat) : fireTimer a g i = none := by
  unfold fireTimer
  rw [h]
  rfl

/-- One scheduler step preserves ProposeBagInv. -/
theorem proposeBagInv_step (a : ConsensusActor) (n : Nat) (g g2 : GlobalState)
    (act : Action) (hinv : ProposeBagInv a n g)
    (hstep : applyAction a g act = some g2) : ProposeBagInv a n g2 := by
  obtain ⟨htim, hbag⟩ := hinv
  cases act with
  | fire i =>
      rw [applyAction, fireTimer_none_of_no_timers a g htim i] at hstep
      cases hstep
  | deliver i =>
      rw [applyAction] at hstep
      unfold deliver at hstep
      cases hget : g.network.get? i with
      | none => rw [hget] at hstep; cases hstep
      | some e =>
          rw [hget] at hstep
          dsimp only at hstep
          cases hs : g.actor_states.get? e.dst with
          | none => rw [hs] at hstep; cases hstep
          | some st =>
              rw [hs] at hstep
              dsimp only at hstep
              cases hstep
              constructor
              · simp [htim, on_msg_timers_nil]
              · intro e2 he2 hprop
                rcases List.mem_append.mp he2 with hin | hin
                · exact hbag e2 (List.eraseIdx_subset _ _ hin) hprop
                · obtain ⟨pm, hpm, rfl⟩ := List.mem_map.mp hin
                  obtain ⟨v, hv⟩ := hprop
                  have hnp := on_msg_sends_not_propose a st e.msg pm hpm
                  dsimp only at hv
                  rw [hv] at hnp
                  simp [isProposeMsg] at hnp

/-- Runs preserve ProposeBagInv. -/
theorem runModel_preserves_inv (a : ConsensusActor) (n : Nat)
    (acts : List Action) :
    ∀ g g2, ProposeBagInv a n g → runModel a g acts = some g2 →
      ProposeBagInv a n g2 := by
  induction acts with
  | nil =>
      intro g g2 h hr
      cases hr
      exact h
  | cons act rest ih =>
      intro g g2 h hr
      unfold runModel at hr
      cases hap : applyAction a g act with
      | none => rw [hap] at hr; cases hr
      | some gm =>
          rw [hap] at hr
          exact ih gm g2 (proposeBagInv_step a n g gm act h hap) hr

/-- Claim C10: no operation ever schedules a timer, so in the composed
model no timeout transition is ever enabled and the spontaneous-proposal
branch of on_timeout never runs; every in-flight Propose envelope of
every reachable global state is one of the envelopes node 0 broadcast
from on_start. -/
theorem no_timer_and_propose_origin (a : ConsensusActor) (n : Nat) :
    (∀ i, (a.on_start i).2.timers = []) ∧
    (∀ s m, (a.on_msg s m).2.timers = []) ∧
    (∀ s t, (a.on_timeout s t).2.timers = []) ∧
    (∀ acts g, runModel a (initGlobal a n) acts = some g →
      g.timers = [] ∧ (∀ i, fireTimer a g i = none) ∧
      ∀ e ∈ g.network, (∃ v, e.msg = MessageType.Propose v) →
        e.src = 0 ∧ e ∈ (initGlobal a n).network) := by
  refine ⟨on_start_timers_nil a, on_msg_timers_nil a, on_timeout_timers_nil a,
    fun acts g hrun => ?_⟩
  have hinit : ProposeBagInv a n (initGlobal a n) :=
    ⟨initGlobal_timers_nil a n,
     fun e he _ => ⟨initGlobal_src_zero a n e he, he⟩⟩
  obtain ⟨htim, hbag⟩ := runModel_preserves_inv a n acts _ g hinit hrun
  exact ⟨htim, fireTimer_none_of_no_timers a g htim, hbag⟩

/-- Witness for no_timer_and_propose_origin: after one delivery in the S6
model, no timers exist, no timeout transition is enabled, and the first
remaining envelope is a Propose seeded by node 0. -/
theorem no_timer_and_propose_origin_witness :
    (∀ i, fireTimer cfgS6 (initGlobal cfgS6 3) i = none) ∧
    (initGlobal cfgS6 3).timers = [] :=
  ⟨((no_timer_and_propose_origin cfgS6 3).2.2.2 [] (initGlobal cfgS6 3)
      rfl).2.1,
   ((no_timer_and_propose_origin cfgS6 3).2.2.2 [] (initGlobal cfgS6 3)
      rfl).1⟩

end CsSr
